import Mathlib

/-!
Verification development for the resource_proxy mobile device manager.

The development shallowly embeds the Redis-backed state of the service and
the operations of storage.py, appium_pool.py and main.py as pure Lean
functions over an explicit state record.  Redis hashes become an optional
record per device key, Redis sets become finite sets, TTL keys become
booleans recording key existence, and wall-clock timestamps become an
explicit natural-number parameter.  External HTTP effects (the Appium
session calls of appium_controller.py) are modelled by boolean oracles,
since only their success or failure influences the state transitions.
-/

/-- Device as declared in models.py.  The pydantic model defaults
appium_server and updated_at to None. -/
structure Device where
  device_id : String
  platform : String
  version : String
  location : Option String := none
  status : String := "available"
  current_session : Option String := none
  updated_at : Option Nat := none
  wda_local_port : Option Int := none
  appium_server : Option String := none
deriving DecidableEq, Repr

/-- The Redis hash written for a device by storage.py.  All values are
strings, exactly the fields produced by the hash serialisation in
storage.py; note that there is no server-endpoint field at all. -/
structure DeviceHash where
  device_id : String
  platform : String
  version : String
  location : String
  status : String
  current_session : String
  wda_local_port : String
  updated_at : String
deriving DecidableEq, Repr

/-- Python truthiness of an optional integer: None and 0 are falsy. -/
def intTruthy : Option Int → Bool
  | none => false
  | some n => n != 0

/-- Serialisation of a device record into its Redis hash, from storage.py.
Falsy optional fields (None, empty string, port 0) serialise to the empty
string, mirroring the `or ""` idiom of the source. -/
def device_to_hash (d : Device) (now : Nat) : DeviceHash :=
  { device_id := d.device_id
    platform := d.platform
    version := d.version
    location := d.location.getD ""
    status := d.status
    current_session := d.current_session.getD ""
    wda_local_port :=
      if intTruthy d.wda_local_port then toString (d.wda_local_port.getD 0) else ""
    updated_at := toString now }

/-- Whitespace stripping at both ends, the semantics of the Python strip
method, implemented by structural recursion on the character list. -/
def strTrim (s : String) : String :=
  String.mk (((s.data.dropWhile Char.isWhitespace).reverse.dropWhile
    Char.isWhitespace).reverse)

/-- Accumulates the decimal value of a digit string; fails on the first
character outside the digit range 48 to 57. -/
def digitsValAux : Nat → List Char → Option Nat
  | acc, [] => some acc
  | acc, c :: cs =>
    if 48 ≤ c.toNat ∧ c.toNat ≤ 57 then digitsValAux (acc * 10 + (c.toNat - 48)) cs
    else none

/-- Integer parsing with the semantics of the Python int constructor on an
already stripped string: an optional sign followed by a non-empty digit
string; anything else fails. -/
def strToInt (s : String) : Option Int :=
  match s.data with
  | [] => none
  | c :: cs =>
    if c = '-' then
      match cs with
      | [] => none
      | _ => (digitsValAux 0 cs).map fun n => -(n : Int)
    else if c = '+' then
      match cs with
      | [] => none
      | _ => (digitsValAux 0 cs).map fun n => (n : Int)
    else (digitsValAux 0 (c :: cs)).map fun n => (n : Int)

/-- Parsing of the stored wda_local_port field, from storage.py: the value
is parsed as an integer when non-blank, and any parse failure yields None. -/
def parseWdaField (s : String) : Option Int :=
  if strTrim s = "" then none else strToInt (strTrim s)

/-- Deserialisation of a Redis hash back into a device, from storage.py.
The updated_at field is set to None and the appium_server field is never
assigned, so it keeps its pydantic default None. -/
def hash_to_device (h : DeviceHash) : Device :=
  { device_id := h.device_id
    platform := h.platform
    version := h.version
    location := if h.location = "" then none else some h.location
    status := h.status
    current_session := if h.current_session = "" then none else some h.current_session
    updated_at := none
    wda_local_port := parseWdaField h.wda_local_port
    appium_server := none }

/-- The complete Redis-backed state used by storage.py: device hashes, the
status and platform index sets, the per-device reservation lock keys, the
per-device heartbeat keys (a boolean records key existence; TTL expiry is
modelled as the key being absent), the global set of used WDA ports and
the coarse WDA pool lock key. -/
structure StoreState where
  devices : String → Option DeviceHash
  statusIdx : String → Finset String
  platformIdx : String → Finset String
  lock : String → Bool
  hb : String → Bool
  wdaUsed : Finset Int
  wdaPoolLock : Bool

namespace DeviceStore

/-- DeviceStore.register from storage.py: upsert of the hash, platform
index add, status index move when the stored status changed, and marking
a fixed iOS port as used. -/
def register (st : StoreState) (d : Device) (now : Nat) : StoreState :=
  let old := st.devices d.device_id
  let old_status : String :=
    match old with
    | some h => h.status
    | none => ""
  let st1 : StoreState :=
    { st with
      devices := fun k => if k = d.device_id then some (device_to_hash d now) else st.devices k
      platformIdx := fun p =>
        if p = d.platform then insert d.device_id (st.platformIdx p) else st.platformIdx p }
  let st2 : StoreState :=
    if old_status ≠ "" ∧ old_status ≠ d.status then
      { st1 with statusIdx := fun s =>
          if s = old_status then (st1.statusIdx s).erase d.device_id else st1.statusIdx s }
    else st1
  let st3 : StoreState :=
    { st2 with statusIdx := fun s =>
        if s = d.status then insert d.device_id (st2.statusIdx s) else st2.statusIdx s }
  if d.platform = "ios" ∧ intTruthy d.wda_local_port then
    { st3 with wdaUsed := insert (d.wda_local_port.getD 0) st3.wdaUsed }
  else st3

/-- DeviceStore.get from storage.py: returns None when the hash is absent;
otherwise deserialises the hash and, when the heartbeat key is missing and
the stored status is available, overrides the returned status to offline.
The stored record is not modified. -/
def get (st : StoreState) (device_id : String) : Option Device :=
  match st.devices device_id with
  | none => none
  | some h =>
    let dev := hash_to_device h
    if st.hb device_id = false ∧ dev.status = "available" then
      some { dev with status := "offline" }
    else
      some dev

/-- DeviceStore.list from storage.py: intersects the selected index sets,
defaulting to the union of the three status sets, and resolves identifiers
through get in lexicographic order. -/
def list (st : StoreState) (status : Option String) (platform : Option String) :
    List Device :=
  let ids0 : Option (Finset String) := status.map fun s => st.statusIdx s
  let ids1 : Option (Finset String) :=
    match platform with
    | none => ids0
    | some p =>
      let pset := st.platformIdx p
      some (match ids0 with | none => pset | some s => s ∩ pset)
  let ids : Finset String :=
    match ids1 with
    | some s => s
    | none => st.statusIdx "available" ∪ st.statusIdx "in_use" ∪ st.statusIdx "offline"
  (ids.sort (· ≤ ·)).filterMap (get st)

/-- The internal status transition helper of storage.py: fails (None) when
the hash is absent, otherwise rewrites the status field and moves the
identifier between status index sets when the status actually changed. -/
def update_status (st : StoreState) (device_id new_status : String) (now : Nat) :
    Option StoreState :=
  match st.devices device_id with
  | none => none
  | some h =>
    let st1 : StoreState :=
      { st with devices := fun k =>
          if k = device_id then some { h with status := new_status, updated_at := toString now }
          else st.devices k }
    if h.status ≠ "" ∧ h.status ≠ new_status then
      some { st1 with statusIdx := fun s =>
          if s = h.status then (st1.statusIdx s).erase device_id
          else if s = new_status then insert device_id (st1.statusIdx s)
          else st1.statusIdx s }
    else
      some st1

/-- DeviceStore.acquire_lock from storage.py: set-if-absent on the lock
key; returns whether the lock was taken, together with the new state. -/
def acquire_lock (st : StoreState) (device_id : String) : Bool × StoreState :=
  if st.lock device_id then (false, st)
  else (true, { st with lock := fun k => if k = device_id then true else st.lock k })

/-- DeviceStore.release_lock from storage.py: deletes the lock key. -/
def release_lock (st : StoreState) (device_id : String) : StoreState :=
  { st with lock := fun k => if k = device_id then false else st.lock k }

/-- DeviceStore.reserve from storage.py.  The source signature accepts
only a device id and a session id; the written hash fields are the status,
the session id and the timestamp, and the identifier is moved from the
available index set to the in_use one.  No server endpoint is accepted or
stored.  Callers in the modelled flows only invoke this for an existing
hash, so the missing-hash case is left as the identity. -/
def reserve (st : StoreState) (device_id session_id : String) (now : Nat) : StoreState :=
  match st.devices device_id with
  | none => st
  | some h =>
    { st with
      devices := fun k =>
        if k = device_id then
          some { h with status := "in_use", current_session := session_id,
                        updated_at := toString now }
        else st.devices k
      statusIdx := fun s =>
        if s = "available" then (st.statusIdx s).erase device_id
        else if s = "in_use" then insert device_id (st.statusIdx s)
        else st.statusIdx s }

/-- DeviceStore.release from storage.py: reads the stored port field, sets
the status back to available with an empty session, moves the identifier
from the in_use index set to the available one, and removes the parsed
port from the global used set (parse failures are swallowed). -/
def release (st : StoreState) (device_id : String) (now : Nat) : StoreState :=
  let wda_port : Option String := (st.devices device_id).map fun h => h.wda_local_port
  let st1 : StoreState :=
    match st.devices device_id with
    | none => st
    | some h =>
      { st with devices := fun k =>
          if k = device_id then
            some { h with status := "available", current_session := "",
                          updated_at := toString now }
          else st.devices k }
  let st2 : StoreState :=
    { st1 with statusIdx := fun s =>
        if s = "in_use" then (st1.statusIdx s).erase device_id
        else if s = "available" then insert device_id (st1.statusIdx s)
        else st1.statusIdx s }
  match wda_port with
  | none => st2
  | some s =>
    if strTrim s ≠ "" then
      match strToInt (strTrim s) with
      | some n => { st2 with wdaUsed := st2.wdaUsed.erase n }
      | none => st2
    else st2

/-- DeviceStore.heartbeat from storage.py: sets the heartbeat key (with
the fixed TTL, modelled as presence), then reads the device back and, when
the returned status is offline, promotes the stored status to available.
The fallback branch of getD is unreachable because get just returned a
device, so the hash exists. -/
def heartbeat (st : StoreState) (device_id : String) (now : Nat) : StoreState :=
  let st1 : StoreState := { st with hb := fun k => if k = device_id then true else st.hb k }
  match get st1 device_id with
  | none => st1
  | some d =>
    if d.status = "offline" then (update_status st1 device_id "available" now).getD st1
    else st1

/-- The closed integer range scanned by the WDA port allocator. -/
def portRange (start stop : Int) : List Int :=
  (List.range (stop + 1 - start).toNat).map fun (i : Nat) => start + (i : Int)

/-- First candidate of the list not in the used set, mirroring the scan
loop of the locked allocator in storage.py. -/
def firstFree (used : Finset Int) : List Int → Option Int
  | [] => none
  | p :: ps => if p ∈ used then firstFree used ps else some p

/-- The locked WDA allocator of storage.py: scans the range upward for a
port not in the used set, adds it to the set and returns it; returns None
when the whole range is used. -/
def alloc_wda_port_locked (st : StoreState) (start stop : Int) : Option Int × StoreState :=
  match firstFree st.wdaUsed (portRange start stop) with
  | some p => (some p, { st with wdaUsed := insert p st.wdaUsed })
  | none => (none, st)

/-- DeviceStore.allocate_wda_port from storage.py: takes the coarse pool
lock, runs the locked scan, releases the pool lock on both outcomes, and
raises when the range is exhausted.  The unbounded sleep-and-retry loop of
the source when the pool lock is held is modelled with explicit fuel. -/
def allocate_wda_port : Nat → StoreState → Int → Int → Except String Int × StoreState
  | 0, st, _, _ => (Except.error "retry fuel exhausted", st)
  | fuel + 1, st, start, stop =>
    if st.wdaPoolLock then
      allocate_wda_port fuel st start stop
    else
      let st1 : StoreState := { st with wdaPoolLock := true }
      let r := alloc_wda_port_locked st1 start stop
      let st3 : StoreState := { r.2 with wdaPoolLock := false }
      match r.1 with
      | some p => (Except.ok p, st3)
      | none => (Except.error "No free wdaLocalPort in configured range", st3)

/-- DeviceStore.set_wda_port_on_device from storage.py: writes the port
field on the hash and adds the port to the global used set.  Callers only
invoke this for an existing record. -/
def set_wda_port_on_device (st : StoreState) (device_id : String) (port : Int) (now : Nat) :
    StoreState :=
  let st1 : StoreState :=
    match st.devices device_id with
    | none => st
    | some h =>
      { st with devices := fun k =>
          if k = device_id then
            some { h with wda_local_port := toString port, updated_at := toString now }
          else st.devices k }
  { st1 with wdaUsed := insert port st1.wdaUsed }

end DeviceStore

/-- Trailing-slash normalisation shared by appium_pool.py and
appium_controller.py. -/
def normalise (s : String) : String :=
  String.mk ((s.data.reverse.dropWhile fun c => c = '/').reverse)

/-- The two Redis sets backing the Appium server pool. -/
structure PoolState where
  available : Finset String
  in_use : Finset String
deriving DecidableEq

namespace AppiumServerPool

/-- The configured server universe of appium_pool.py: truthy entries of
the configured list, each normalised. -/
def configuredServers (cfg : List String) : List String :=
  (cfg.filter fun s => s ≠ "").map normalise

/-- Pool initialisation of appium_pool.py: removes persisted available
entries no longer configured and adds configured entries missing from
both sets to the available set. -/
def ensure_servers_registered (cfg : List String) (p : PoolState) : PoolState :=
  let desired : Finset String := (configuredServers cfg).toFinset
  let existing : Finset String := p.available ∪ p.in_use
  let stale : Finset String := p.available \ desired
  let p1 : PoolState := { p with available := p.available \ stale }
  let missing : Finset String := desired \ existing
  { p1 with available := p1.available ∪ missing }

/-- First half of acquire in appium_pool.py: the spop call removes one
member from the available set.  This is a separate Redis command from the
sadd that follows, so the state after it is externally observable. -/
def acquireStep1 (p : PoolState) (x : String) : PoolState :=
  { p with available := p.available.erase x }

/-- Second half of acquire in appium_pool.py: the sadd call inserts the
normalised popped value into the in_use set. -/
def acquireStep2 (p : PoolState) (x : String) : PoolState :=
  { p with in_use := insert (normalise x) p.in_use }

/-- Both halves of acquire, i.e. the state once the method returns. -/
def acquire (p : PoolState) (x : String) : PoolState :=
  acquireStep2 (acquireStep1 p x) x

/-- Release in appium_pool.py: one transactional pipeline removing the
normalised endpoint from in_use and re-adding it to available only when
it is still part of the configured universe. -/
def release (cfg : List String) (p : PoolState) (server : String) : PoolState :=
  let n := normalise server
  { available := if n ∈ (configuredServers cfg).toFinset then insert n p.available
                 else p.available
    in_use := p.in_use.erase n }

end AppiumServerPool

/-- Outcome of an endpoint call in main.py, keyed by the HTTP status the
handler produces: ok is 200, notFound 404, conflict 409, locked 423,
poolExhausted 503, sessionFailed 502, and typeError or rangeError are
unhandled exceptions surfacing as an internal server error. -/
inductive HttpResult
  | ok
  | notFound
  | conflict
  | locked
  | poolExhausted
  | sessionFailed
  | rangeError
  | typeError
deriving DecidableEq, Repr

/-- ReserveRequest as declared in models.py. -/
structure ReserveRequest where
  device_id : String
  test_id : String
  wda_local_port : Option Int := none
deriving DecidableEq, Repr

/-- Determinisation of the arbitrary member returned by the Redis spop
command: the sequential model pops the head of an enumeration of the set.
No settled claim depends on which member is popped. -/
def spopChoice (s : Finset String) : Option String :=
  (s.sort (· ≤ ·)).head?

namespace Main

/-- Fuel for the WDA allocator retry loop: a single sequential caller
observes the pool lock free, so one attempt suffices. -/
def wdaFuel : Nat := 1

/-- Continuation of reserve_device in main.py after the port handling:
pool acquisition, the external session-start call (the boolean oracle
sessOk stands for its success), and the final store commit.  The commit
line of main.py calls the storage reserve with a third server argument
that the storage signature does not accept, so the call raises TypeError
before any store mutation happens; the finally block still runs in the
caller, but the acquired pool server is not released on that path. -/
def afterPort (st : StoreState) (pool : PoolState) (cfg : List String)
    (sessOk : Bool) : HttpResult × StoreState × PoolState :=
  match spopChoice pool.available with
  | none => (.poolExhausted, st, pool)
  | some x =>
    if x = "" then (.poolExhausted, st, pool)
    else
      let server := normalise x
      let pool1 := AppiumServerPool.acquire pool x
      if sessOk = false then
        (.sessionFailed, st, AppiumServerPool.release cfg pool1 server)
      else
        (.typeError, st, pool1)

/-- Body of the lock-guarded section of reserve_device in main.py: the
double check under the lock, the iOS port handling, and afterPort. -/
def reserve_body (st : StoreState) (pool : PoolState) (cfg : List String)
    (req : ReserveRequest) (sessOk : Bool) (now : Nat) (start stop : Int) :
    HttpResult × StoreState × PoolState :=
  match DeviceStore.get st req.device_id with
  | none => (.conflict, st, pool)
  | some d =>
    if d.status ≠ "available" then (.conflict, st, pool)
    else if d.platform = "ios" then
      if intTruthy req.wda_local_port then
        let p := req.wda_local_port.getD 0
        afterPort (DeviceStore.set_wda_port_on_device st req.device_id p now) pool cfg sessOk
      else if intTruthy d.wda_local_port then
        afterPort st pool cfg sessOk
      else
        match DeviceStore.allocate_wda_port wdaFuel st start stop with
        | (Except.ok p, st1) =>
          afterPort (DeviceStore.set_wda_port_on_device st1 req.device_id p now) pool cfg sessOk
        | (Except.error _, st1) => (.rangeError, st1, pool)
    else
      afterPort st pool cfg sessOk

/-- reserve_device in main.py: initial existence and availability checks,
the set-if-absent lock acquisition answered with locked on failure, then
the guarded body with the lock released on every exit of the body, which
is the translation of the try-finally of the source. -/
def reserve_device (st : StoreState) (pool : PoolState) (cfg : List String)
    (req : ReserveRequest) (sessOk : Bool) (now : Nat) (start stop : Int) :
    HttpResult × StoreState × PoolState :=
  match DeviceStore.get st req.device_id with
  | none => (.notFound, st, pool)
  | some d =>
    if d.status ≠ "available" then (.conflict, st, pool)
    else
      match DeviceStore.acquire_lock st req.device_id with
      | (false, st1) => (.locked, st1, pool)
      | (true, st1) =>
        let r := reserve_body st1 pool cfg req sessOk now start stop
        (r.1, DeviceStore.release_lock r.2.1 req.device_id, r.2.2)

/-- release_device in main.py: existence and in_use checks, the
best-effort external session stop (no model state), the pool release
guarded on the recorded endpoint, and the storage release. -/
def release_device (st : StoreState) (pool : PoolState) (cfg : List String)
    (device_id : String) (now : Nat) : HttpResult × StoreState × PoolState :=
  match DeviceStore.get st device_id with
  | none => (.notFound, st, pool)
  | some d =>
    if d.status ≠ "in_use" then (.conflict, st, pool)
    else
      let pool1 :=
        match d.appium_server with
        | some s => AppiumServerPool.release cfg pool s
        | none => pool
      (.ok, DeviceStore.release st device_id now, pool1)

/-- The heartbeat endpoint of main.py: notFound when the device is
unknown, otherwise the storage heartbeat. -/
def heartbeat (st : StoreState) (device_id : String) (now : Nat) :
    HttpResult × StoreState :=
  match DeviceStore.get st device_id with
  | none => (.notFound, st)
  | some _ => (.ok, DeviceStore.heartbeat st device_id now)

end Main

namespace TwoReserve

/-!
Small-step model of two concurrent reserve_device requests against the
same device, used for the mutual-exclusion claim.  Each Redis round trip
of the handler is one atomic transition on the shared state; the
wda-port allocation (which cycles the separate coarse pool lock and never
touches the device lock, status or indexes) and the two halves of the
pool acquire (which only touch the pool sets, never read by the other
process outside its own pool transition) are folded into one transition
each, which preserves every observation the other process can make in
this system.
-/

/-- Program counter of one reserve_device request. -/
inductive PC
  | checkInit
  | lockStep
  | recheck
  | portStep (d : Device)
  | poolStep
  | sessStep (server : String)
  | commitStep (server : String)
  | unlockStep (r : HttpResult)
  | done (r : HttpResult)
deriving DecidableEq, Repr

/-- Request parameters of one process: the optional requested port and the
success of its external session-start call. -/
structure ProcParams where
  reqPort : Option Int
  sessOk : Bool
deriving DecidableEq, Repr

/-- One transition of a single reserve_device request, following the
control flow of main.py line by line. -/
inductive PStep (did : String) (cfg : List String) (start stop : Int) (now : Nat)
    (pp : ProcParams) :
    PC × StoreState × PoolState → PC × StoreState × PoolState → Prop
  | check_ok (st : StoreState) (pool : PoolState) (d : Device)
      (h : DeviceStore.get st did = some d) (ha : d.status = "available") :
      PStep did cfg start stop now pp (PC.checkInit, st, pool) (PC.lockStep, st, pool)
  | check_notfound (st : StoreState) (pool : PoolState)
      (h : DeviceStore.get st did = none) :
      PStep did cfg start stop now pp (PC.checkInit, st, pool) (PC.done .notFound, st, pool)
  | check_conflict (st : StoreState) (pool : PoolState) (d : Device)
      (h : DeviceStore.get st did = some d) (ha : d.status ≠ "available") :
      PStep did cfg start stop now pp (PC.checkInit, st, pool) (PC.done .conflict, st, pool)
  | lock_fail (st : StoreState) (pool : PoolState) (h : st.lock did = true) :
      PStep did cfg start stop now pp (PC.lockStep, st, pool) (PC.done .locked, st, pool)
  | lock_ok (st : StoreState) (pool : PoolState) (h : st.lock did = false) :
      PStep did cfg start stop now pp (PC.lockStep, st, pool)
        (PC.recheck, (DeviceStore.acquire_lock st did).2, pool)
  | recheck_ok (st : StoreState) (pool : PoolState) (d : Device)
      (h : DeviceStore.get st did = some d) (ha : d.status = "available") :
      PStep did cfg start stop now pp (PC.recheck, st, pool) (PC.portStep d, st, pool)
  | recheck_gone (st : StoreState) (pool : PoolState)
      (h : DeviceStore.get st did = none) :
      PStep did cfg start stop now pp (PC.recheck, st, pool)
        (PC.unlockStep .conflict, st, pool)
  | recheck_conflict (st : StoreState) (pool : PoolState) (d : Device)
      (h : DeviceStore.get st did = some d) (ha : d.status ≠ "available") :
      PStep did cfg start stop now pp (PC.recheck, st, pool)
        (PC.unlockStep .conflict, st, pool)
  | port_skip (st : StoreState) (pool : PoolState) (d : Device)
      (h : d.platform ≠ "ios") :
      PStep did cfg start stop now pp (PC.portStep d, st, pool) (PC.poolStep, st, pool)
  | port_req (st : StoreState) (pool : PoolState) (d : Device)
      (h : d.platform = "ios") (hr : intTruthy pp.reqPort = true) :
      PStep did cfg start stop now pp (PC.portStep d, st, pool)
        (PC.poolStep, DeviceStore.set_wda_port_on_device st did (pp.reqPort.getD 0) now, pool)
  | port_reuse (st : StoreState) (pool : PoolState) (d : Device)
      (h : d.platform = "ios") (hr : intTruthy pp.reqPort = false)
      (hw : intTruthy d.wda_local_port = true) :
      PStep did cfg start stop now pp (PC.portStep d, st, pool) (PC.poolStep, st, pool)
  | port_alloc_ok (st : StoreState) (pool : PoolState) (d : Device) (p : Int)
      (st2 : StoreState)
      (h : d.platform = "ios") (hr : intTruthy pp.reqPort = false)
      (hw : intTruthy d.wda_local_port = false) (hl : st.wdaPoolLock = false)
      (ha : DeviceStore.allocate_wda_port 1 st start stop = (Except.ok p, st2)) :
      PStep did cfg start stop now pp (PC.portStep d, st, pool)
        (PC.poolStep, DeviceStore.set_wda_port_on_device st2 did p now, pool)
  | port_alloc_fail (st : StoreState) (pool : PoolState) (d : Device) (e : String)
      (st2 : StoreState)
      (h : d.platform = "ios") (hr : intTruthy pp.reqPort = false)
      (hw : intTruthy d.wda_local_port = false) (hl : st.wdaPoolLock = false)
      (ha : DeviceStore.allocate_wda_port 1 st start stop = (Except.error e, st2)) :
      PStep did cfg start stop now pp (PC.portStep d, st, pool)
        (PC.unlockStep .rangeError, st2, pool)
  | port_alloc_wait (st : StoreState) (pool : PoolState) (d : Device)
      (h : d.platform = "ios") (hr : intTruthy pp.reqPort = false)
      (hw : intTruthy d.wda_local_port = false) (hl : st.wdaPoolLock = true) :
      PStep did cfg start stop now pp (PC.portStep d, st, pool) (PC.portStep d, st, pool)
  | pool_ok (st : StoreState) (pool : PoolState) (x : String)
      (hx : x ∈ pool.available) :
      PStep did cfg start stop now pp (PC.poolStep, st, pool)
        (PC.sessStep (normalise x), st, AppiumServerPool.acquire pool x)
  | pool_empty (st : StoreState) (pool : PoolState) (hx : pool.available = ∅) :
      PStep did cfg start stop now pp (PC.poolStep, st, pool)
        (PC.unlockStep .poolExhausted, st, pool)
  | sess_ok (st : StoreState) (pool : PoolState) (server : String)
      (h : pp.sessOk = true) :
      PStep did cfg start stop now pp (PC.sessStep server, st, pool)
        (PC.commitStep server, st, pool)
  | sess_fail (st : StoreState) (pool : PoolState) (server : String)
      (h : pp.sessOk = false) :
      PStep did cfg start stop now pp (PC.sessStep server, st, pool)
        (PC.unlockStep .sessionFailed, st, AppiumServerPool.release cfg pool server)
  | commit_arity (st : StoreState) (pool : PoolState) (server : String) :
      PStep did cfg start stop now pp (PC.commitStep server, st, pool)
        (PC.unlockStep .typeError, st, pool)
  | unlock (st : StoreState) (pool : PoolState) (r : HttpResult) :
      PStep did cfg start stop now pp (PC.unlockStep r, st, pool)
        (PC.done r, DeviceStore.release_lock st did, pool)

/-- Joint state of the two requests and the shared store and pool. -/
structure Sys where
  a : PC
  b : PC
  store : StoreState
  pool : PoolState

/-- Interleaving: either process takes one of its transitions. -/
inductive SysStep (did : String) (cfg : List String) (start stop : Int) (now : Nat)
    (pa pb : ProcParams) : Sys → Sys → Prop
  | stepA (s : Sys) (pc' : PC) (st' : StoreState) (pool' : PoolState)
      (h : PStep did cfg start stop now pa (s.a, s.store, s.pool) (pc', st', pool')) :
      SysStep did cfg start stop now pa pb s ⟨pc', s.b, st', pool'⟩
  | stepB (s : Sys) (pc' : PC) (st' : StoreState) (pool' : PoolState)
      (h : PStep did cfg start stop now pb (s.b, s.store, s.pool) (pc', st', pool')) :
      SysStep did cfg start stop now pa pb s ⟨s.a, pc', st', pool'⟩

/-- A process is inside the lock-guarded section: it holds the reservation
lock from the successful set-if-absent until its final delete. -/
def inCrit : PC → Bool
  | PC.checkInit => false
  | PC.lockStep => false
  | PC.done _ => false
  | _ => true

/-- No transition of the machine can produce a successful outcome: the
commit call raises TypeError, so ok never reaches a terminal state. -/
def noOk : PC → Prop
  | PC.unlockStep r => r ≠ HttpResult.ok
  | PC.done r => r ≠ HttpResult.ok
  | _ => True

/-- Inductive invariant: the lock key is set exactly when one of the two
processes is inside the guarded section, the guarded section is mutually
exclusive, and neither process carries a successful outcome. -/
def Inv (did : String) (s : Sys) : Prop :=
  s.store.lock did = (inCrit s.a || inCrit s.b)
  ∧ ¬(inCrit s.a = true ∧ inCrit s.b = true)
  ∧ noOk s.a ∧ noOk s.b

end TwoReserve

/-- Exactly-one-set membership for every configured pool endpoint. -/
def exactlyOne (cfg : List String) (p : PoolState) : Prop :=
  ∀ s ∈ (AppiumServerPool.configuredServers cfg).toFinset,
    (s ∈ p.available ∧ s ∉ p.in_use) ∨ (s ∉ p.available ∧ s ∈ p.in_use)

/-- Empty store: no device hashes, empty index sets, no lock or pool-lock
keys, live heartbeat keys for every device id, no used ports. -/
def st0 : StoreState :=
  { devices := fun _ => none
    statusIdx := fun _ => ∅
    platformIdx := fun _ => ∅
    lock := fun _ => false
    hb := fun _ => true
    wdaUsed := ∅
    wdaPoolLock := false }

/-- A registered android device in the default available status. -/
def d1 : Device := { device_id := "d1", platform := "android", version := "13" }

/-- Store after registering d1. -/
def stReg : StoreState := DeviceStore.register st0 d1 7

/-- Pool with a single available server. -/
def poolOne : PoolState := ⟨{"http://a"}, ∅⟩

/-- An iOS device stored as in_use with a session and a fixed port, as it
would stand while holding a reservation. -/
def d2 : Device :=
  { device_id := "d2", platform := "ios", version := "17", status := "in_use",
    current_session := some "sess-9", wda_local_port := some 8100 }

/-- Store after registering d2. -/
def stC2 : StoreState := DeviceStore.register st0 d2 5

/-- Pool whose single server is recorded as in use. -/
def poolBusy : PoolState := ⟨∅, {"http://a"}⟩

/-- Hash of a device stored as available. -/
def hW : DeviceHash := ⟨"w1", "android", "13", "", "available", "", "", "7"⟩

/-- Store holding hW with no live heartbeat key. -/
def stW : StoreState :=
  { devices := fun k => if k = "w1" then some hW else none
    statusIdx := fun s => if s = "available" then {"w1"} else ∅
    platformIdx := fun _ => ∅
    lock := fun _ => false
    hb := fun _ => false
    wdaUsed := ∅
    wdaPoolLock := false }

/-- Hash of a device stored as offline. -/
def hOff : DeviceHash := ⟨"o1", "android", "13", "", "offline", "", "", "3"⟩

/-- Store holding hOff, indexed under offline, with no heartbeat key. -/
def stOff : StoreState :=
  { devices := fun k => if k = "o1" then some hOff else none
    statusIdx := fun s => if s = "offline" then {"o1"} else ∅
    platformIdx := fun _ => ∅
    lock := fun _ => false
    hb := fun _ => false
    wdaUsed := ∅
    wdaPoolLock := false }

/-- Initial joint state for the two-process reservation machine. -/
def sysW : TwoReserve.Sys := ⟨TwoReserve.PC.checkInit, TwoReserve.PC.checkInit, stReg, poolOne⟩

/-- Store state after the successful set-if-absent lock acquisition on d1,
i.e. the state inside the guarded section of the reserve handler. -/
def stL : StoreState := { stReg with lock := fun k => if k = "d1" then true else stReg.lock k }

/-- Store state after allocating port 8100 from the empty used set. -/
def stAlloc : StoreState :=
  { st0 with wdaUsed := insert 8100 st0.wdaUsed, wdaPoolLock := false }


/-- Any device produced by get has no server endpoint and no timestamp:
the deserialisation never populates either field. -/
lemma get_fields_none {st : StoreState} {i : String} {d : Device}
    (hd : DeviceStore.get st i = some d) :
    d.appium_server = none ∧ d.updated_at = none := by
  unfold DeviceStore.get at hd
  cases hdev : st.devices i with
  | none => rw [hdev] at hd; cases hd
  | some h =>
    rw [hdev] at hd
    simp only at hd
    split at hd <;> cases hd <;> exact ⟨rfl, rfl⟩

/-- C10: for every stored device record, get (and therefore list) returns
a device whose appium_server and updated_at fields are None: the written
hash has no server-endpoint field and the deserialisation leaves both
fields unpopulated. -/
theorem c10_server_and_timestamp_never_populated :
    (∀ h : DeviceHash,
        (hash_to_device h).appium_server = none ∧ (hash_to_device h).updated_at = none)
    ∧ (∀ (st : StoreState) (i : String) (d : Device),
        DeviceStore.get st i = some d → d.appium_server = none ∧ d.updated_at = none)
    ∧ (∀ (st : StoreState) (a b : Option String) (d : Device),
        d ∈ DeviceStore.list st a b → d.appium_server = none ∧ d.updated_at = none) := by
  refine ⟨fun h => ⟨rfl, rfl⟩, fun st i d hd => get_fields_none hd, ?_⟩
  intro st a b d hd
  unfold DeviceStore.list at hd
  obtain ⟨i, _, hi⟩ := List.mem_filterMap.mp hd
  exact get_fields_none hi

/-- Closed instance of C10 evaluated on a concrete store. -/
theorem c10_witness :
    (hash_to_device hW).appium_server = none ∧ (hash_to_device hW).updated_at = none :=
  c10_server_and_timestamp_never_populated.1 hW

/-- C5: when the stored status is available and the heartbeat key is
absent, get reports the device as offline while the stored record is
untouched (get is read-only in the model); with a live heartbeat, or any
other stored status, get reports the stored status as-is. -/
theorem c5_get_offline_override (st : StoreState) (i : String) (h : DeviceHash)
    (hdev : st.devices i = some h) :
    (h.status = "available" → st.hb i = false →
        DeviceStore.get st i = some { hash_to_device h with status := "offline" })
    ∧ (st.hb i = true → DeviceStore.get st i = some (hash_to_device h))
    ∧ (h.status ≠ "available" → DeviceStore.get st i = some (hash_to_device h)) := by
  have hst : (hash_to_device h).status = h.status := rfl
  refine ⟨fun h1 h2 => ?_, fun h1 => ?_, fun h1 => ?_⟩
  · simp [DeviceStore.get, hdev, hst, h1, h2]
  · simp [DeviceStore.get, hdev, h1]
  · simp [DeviceStore.get, hdev, hst, h1]

/-- Closed instance of C5: the concrete available device with no live
heartbeat is reported offline. -/
theorem c5_witness :
    DeviceStore.get stW "w1" = some { hash_to_device hW with status := "offline" } :=
  (c5_get_offline_override stW "w1" hW rfl).1 rfl rfl

/-- C1 (code bug): a reserve of a registered, available android device
with a live heartbeat, one available pool server and a successful
session-start call does not complete successfully.  The commit line of
main.py passes a third server argument to the storage reserve, whose
signature accepts two, so the call raises TypeError: the outcome is an
internal error, the stored status is still available with no session
recorded, the lock is released by the finally block, and the acquired
pool server is left stranded in the in_use set. -/
theorem c1_reserve_arity_bug :
    Main.reserve_device stReg poolOne ["http://a"] ⟨"d1", "t1", none⟩ true 8 8100 8199
      = (HttpResult.typeError, DeviceStore.release_lock stL "d1", ⟨∅, {"http://a"}⟩)
    ∧ ((DeviceStore.release_lock stL "d1").devices "d1").map DeviceHash.status
        = some "available"
    ∧ ((DeviceStore.release_lock stL "d1").devices "d1").map DeviceHash.current_session
        = some ""
    ∧ (DeviceStore.release_lock stL "d1").lock "d1" = false := by
  refine ⟨?_, rfl, rfl, rfl⟩
  have hget : DeviceStore.get stReg "d1" = some (hash_to_device (device_to_hash d1 7)) := rfl
  have hlk : DeviceStore.acquire_lock stReg "d1" = (true, stL) := rfl
  have hget2 : DeviceStore.get stL "d1" = some (hash_to_device (device_to_hash d1 7)) := rfl
  have hspop : spopChoice poolOne.available = some "http://a" := by
    simp [spopChoice, poolOne, Finset.sort_singleton]
  have hstat : (hash_to_device (device_to_hash d1 7)).status = "available" := rfl
  have hplat : (hash_to_device (device_to_hash d1 7)).platform = "android" := rfl
  simp only [Main.reserve_device, Main.reserve_body, Main.afterPort, hget, hlk, hget2, hspop,
    hstat, hplat, AppiumServerPool.acquire, AppiumServerPool.acquireStep1,
    AppiumServerPool.acquireStep2]
  norm_num [poolOne, Finset.erase_singleton]
  constructor
  · rfl
  · constructor <;> rfl

/-- C2 (code bug): releasing an in_use iOS device resets the stored
status to available with the session cleared, keeps the assigned port on
the record while removing it from the global used set, and moves the
identifier back to the available index set — but the pool is returned
unchanged: the recorded device never carries the server endpoint (the
hash has no such field), so the endpoint is never given back to the
driver server pool and stays in its in_use set. -/
theorem c2_release_no_pool_return :
    Main.release_device stC2 poolBusy ["http://a"] "d2" 6
      = (HttpResult.ok, DeviceStore.release stC2 "d2" 6, poolBusy)
    ∧ ((DeviceStore.release stC2 "d2" 6).devices "d2").map DeviceHash.status = some "available"
    ∧ ((DeviceStore.release stC2 "d2" 6).devices "d2").map DeviceHash.current_session = some ""
    ∧ ((DeviceStore.release stC2 "d2" 6).devices "d2").map DeviceHash.wda_local_port
        = some "8100"
    ∧ (DeviceStore.release stC2 "d2" 6).wdaUsed = ∅
    ∧ "d2" ∈ (DeviceStore.release stC2 "d2" 6).statusIdx "available"
    ∧ "d2" ∉ (DeviceStore.release stC2 "d2" 6).statusIdx "in_use" := by
  have hget : DeviceStore.get stC2 "d2" = some (hash_to_device (device_to_hash d2 5)) := rfl
  have hstat : (hash_to_device (device_to_hash d2 5)).status = "in_use" := rfl
  have hsrv : (hash_to_device (device_to_hash d2 5)).appium_server = none := rfl
  refine ⟨?_, rfl, rfl, rfl, ?_, ?_, ?_⟩
  · simp only [Main.release_device, hget, hstat, hsrv]
    norm_num
  · show (({8100} : Finset Int).erase 8100) = ∅
    exact Finset.erase_singleton _
  · show "d2" ∈ insert "d2" (stC2.statusIdx "available")
    exact Finset.mem_insert_self _ _
  · show "d2" ∉ (stC2.statusIdx "in_use").erase "d2"
    exact Finset.not_mem_erase _ _

lemma mem_portRange {start stop p : Int} :
    p ∈ DeviceStore.portRange start stop ↔ start ≤ p ∧ p ≤ stop := by
  unfold DeviceStore.portRange
  simp only [List.mem_map, List.mem_range]
  constructor
  · rintro ⟨i, hi, rfl⟩; omega
  · rintro ⟨h1, h2⟩; exact ⟨(p - start).toNat, by omega, by omega⟩

lemma portRange_pairwise (start stop : Int) :
    (DeviceStore.portRange start stop).Pairwise (· ≤ ·) := by
  unfold DeviceStore.portRange
  exact (List.pairwise_lt_range _).map _ (fun a b hab => by omega)

lemma firstFree_eq_none {used : Finset Int} {l : List Int} :
    DeviceStore.firstFree used l = none ↔ ∀ p ∈ l, p ∈ used := by
  induction l with
  | nil => simp [DeviceStore.firstFree]
  | cons a as ih =>
    by_cases ha : a ∈ used
    · simp [DeviceStore.firstFree, ha, ih]
    · simp [DeviceStore.firstFree, ha]

lemma firstFree_eq_some {used : Finset Int} :
    ∀ {l : List Int}, l.Pairwise (· ≤ ·) → ∀ {p : Int},
      DeviceStore.firstFree used l = some p →
      p ∈ l ∧ p ∉ used ∧ ∀ q ∈ l, q ∉ used → p ≤ q := by
  intro l
  induction l with
  | nil => intro _ p hp; cases hp
  | cons a as ih =>
    intro hpw p hp
    by_cases ha : a ∈ used
    · rw [DeviceStore.firstFree, if_pos ha] at hp
      obtain ⟨h1, h2, h3⟩ := ih (List.Pairwise.of_cons hpw) hp
      refine ⟨List.mem_cons_of_mem _ h1, h2, ?_⟩
      intro q hq hqu
      rcases List.mem_cons.mp hq with rfl | hq
      · exact absurd ha hqu
      · exact h3 q hq hqu
    · rw [DeviceStore.firstFree, if_neg ha] at hp
      cases hp
      refine ⟨List.mem_cons_self _ _, ha, ?_⟩
      intro q hq _
      rcases List.mem_cons.mp hq with rfl | hq
      · exact le_refl _
      · exact List.rel_of_pairwise_cons hpw hq

lemma allocate_run (st : StoreState) (start stop : Int) (fuel : Nat)
    (hlock : st.wdaPoolLock = false) :
    DeviceStore.allocate_wda_port (fuel + 1) st start stop =
      match DeviceStore.firstFree st.wdaUsed (DeviceStore.portRange start stop) with
      | some p =>
        (Except.ok p, { st with wdaUsed := insert p st.wdaUsed, wdaPoolLock := false })
      | none =>
        (Except.error "No free wdaLocalPort in configured range",
         { st with wdaPoolLock := false }) := by
  rw [DeviceStore.allocate_wda_port]
  simp only [hlock]
  cases hff : DeviceStore.firstFree st.wdaUsed (DeviceStore.portRange start stop) with
  | none => simp [DeviceStore.alloc_wda_port_locked, hff]
  | some p => simp [DeviceStore.alloc_wda_port_locked, hff]

/-- C6: with the coarse pool lock free, a successful allocation returns
the lowest integer of the closed range not in the global used set and
adds exactly that integer to the set (releasing the pool lock), an
allocation over a fully used range fails with the range-exhausted error,
and an allocation always succeeds when some integer of the range is
free. -/
theorem c6_allocate_lowest_free (st : StoreState) (start stop : Int) (fuel : Nat)
    (hlock : st.wdaPoolLock = false) :
    (∀ (p : Int) (st2 : StoreState),
        DeviceStore.allocate_wda_port (fuel + 1) st start stop = (Except.ok p, st2) →
        (start ≤ p ∧ p ≤ stop) ∧ p ∉ st.wdaUsed
        ∧ (∀ q : Int, start ≤ q → q ≤ stop → q ∉ st.wdaUsed → p ≤ q)
        ∧ st2.wdaUsed = insert p st.wdaUsed ∧ st2.wdaPoolLock = false)
    ∧ ((∀ q : Int, start ≤ q → q ≤ stop → q ∈ st.wdaUsed) →
        (DeviceStore.allocate_wda_port (fuel + 1) st start stop).1
          = Except.error "No free wdaLocalPort in configured range")
    ∧ ((∃ q : Int, start ≤ q ∧ q ≤ stop ∧ q ∉ st.wdaUsed) →
        ∃ (p : Int) (st2 : StoreState),
          DeviceStore.allocate_wda_port (fuel + 1) st start stop = (Except.ok p, st2)) := by
  rw [allocate_run st start stop fuel hlock]
  cases hff : DeviceStore.firstFree st.wdaUsed (DeviceStore.portRange start stop) with
  | none =>
    refine ⟨?_, fun _ => rfl, ?_⟩
    · intro p st2 h
      exact absurd h (by simp)
    · rintro ⟨q, hq1, hq2, hq3⟩
      exact absurd (firstFree_eq_none.mp hff q (mem_portRange.mpr ⟨hq1, hq2⟩)) hq3
  | some p =>
    obtain ⟨h1, h2, h3⟩ := firstFree_eq_some (portRange_pairwise start stop) hff
    refine ⟨?_, fun hall => ?_, fun _ =>
      ⟨p, { st with wdaUsed := insert p st.wdaUsed, wdaPoolLock := false }, rfl⟩⟩
    · intro p2 st2 h
      have hok : (Except.ok p : Except String Int) = Except.ok p2 := congrArg Prod.fst h
      have hst := congrArg Prod.snd h
      dsimp only at hst
      cases hok
      subst hst
      exact ⟨mem_portRange.mp h1, h2,
        fun q hq1 hq2 hqu => h3 q (mem_portRange.mpr ⟨hq1, hq2⟩) hqu, rfl, rfl⟩
    · exact absurd (hall p (mem_portRange.mp h1).1 (mem_portRange.mp h1).2) h2

theorem c6_witness :
    ((8100 : Int) ≤ 8100 ∧ (8100 : Int) ≤ 8101) ∧ (8100 : Int) ∉ st0.wdaUsed
    ∧ (∀ q : Int, 8100 ≤ q → q ≤ 8101 → q ∉ st0.wdaUsed → (8100 : Int) ≤ q)
    ∧ stAlloc.wdaUsed = insert 8100 st0.wdaUsed
    ∧ stAlloc.wdaPoolLock = false :=
  (c6_allocate_lowest_free st0 8100 8101 0 rfl).1 8100 stAlloc (by rfl)

/-- C7: the reserve handler never leaves the reservation lock behind:
whenever the lock key is initially free (the only situation in which it
can be acquired), the lock key is free again when the handler returns,
whatever the device state, the pool contents and the outcome of the
external session call — the try-finally of main.py releases the acquired
lock on the success, conflict, range-error, pool-exhausted and
session-failed paths alike. -/
theorem c7_lock_released_on_all_paths (st : StoreState) (pool : PoolState)
    (cfg : List String) (req : ReserveRequest) (sessOk : Bool) (now : Nat)
    (start stop : Int) (h0 : st.lock req.device_id = false) :
    (Main.reserve_device st pool cfg req sessOk now start stop).2.1.lock req.device_id
      = false := by
  unfold Main.reserve_device
  cases hget : DeviceStore.get st req.device_id with
  | none => exact h0
  | some d =>
    by_cases hs : d.status = "available"
    · simp only [hs]
      have hlk : DeviceStore.acquire_lock st req.device_id
          = (true, { st with lock := fun k => if k = req.device_id then true
                                              else st.lock k }) := by
        unfold DeviceStore.acquire_lock
        rw [h0]
        simp
      rw [hlk]
      simp [DeviceStore.release_lock]
    · simp only [hs]
      simp [hs, h0]

theorem c7_witness :
    (Main.reserve_device stReg poolOne ["http://a"] ⟨"d1", "t1", none⟩ true 8 8100
        8199).2.1.lock "d1" = false :=
  c7_lock_released_on_all_paths stReg poolOne ["http://a"] ⟨"d1", "t1", none⟩ true 8 8100
    8199 rfl

/-- C8: heartbeat answers notFound without touching the store when the
device is unknown; otherwise it sets the heartbeat key and, exactly when
the stored status is offline, rewrites the stored status to available and
moves the identifier from the offline index set to the available one; any
other stored status and the whole status index are left unchanged. -/
theorem c8_heartbeat (st : StoreState) (i : String) (now : Nat) :
    (st.devices i = none → Main.heartbeat st i now = (HttpResult.notFound, st))
    ∧ ∀ h : DeviceHash, st.devices i = some h →
        (Main.heartbeat st i now).1 = HttpResult.ok
        ∧ (Main.heartbeat st i now).2.hb i = true
        ∧ (h.status = "offline" →
            ((Main.heartbeat st i now).2.devices i).map DeviceHash.status = some "available"
            ∧ (Main.heartbeat st i now).2.statusIdx "offline" = (st.statusIdx "offline").erase i
            ∧ (Main.heartbeat st i now).2.statusIdx "available"
                = insert i (st.statusIdx "available")
            ∧ ∀ s, s ≠ "offline" → s ≠ "available" →
                (Main.heartbeat st i now).2.statusIdx s = st.statusIdx s)
        ∧ (h.status ≠ "offline" →
            ((Main.heartbeat st i now).2.devices i).map DeviceHash.status = some h.status
            ∧ ∀ s, (Main.heartbeat st i now).2.statusIdx s = st.statusIdx s) := by
  constructor
  · intro hnone
    simp [Main.heartbeat, DeviceStore.get, hnone]
  · intro h hsome
    obtain ⟨d0, hget⟩ : ∃ d0, DeviceStore.get st i = some d0 := by
      unfold DeviceStore.get
      rw [hsome]
      dsimp only
      split
      · exact ⟨_, rfl⟩
      · exact ⟨_, rfl⟩
    have hmain : Main.heartbeat st i now = (HttpResult.ok, DeviceStore.heartbeat st i now) := by
      unfold Main.heartbeat
      rw [hget]
    rw [hmain]
    have hst1dev :
        ({ st with hb := fun k => if k = i then true else st.hb k } : StoreState).devices i
          = some h := hsome
    have hget1 : DeviceStore.get
        { st with hb := fun k => if k = i then true else st.hb k } i
        = some (hash_to_device h) := by
      unfold DeviceStore.get
      rw [hst1dev]
      simp [hash_to_device]
    have hhb : DeviceStore.heartbeat st i now =
        if (hash_to_device h).status = "offline" then
          (DeviceStore.update_status
            { st with hb := fun k => if k = i then true else st.hb k } i "available" now).getD
            { st with hb := fun k => if k = i then true else st.hb k }
        else { st with hb := fun k => if k = i then true else st.hb k } := by
      unfold DeviceStore.heartbeat
      simp only [hget1]
    have hst : (hash_to_device h).status = h.status := rfl
    rw [hhb, hst]
    by_cases hoff : h.status = "offline"
    · rw [if_pos hoff]
      have hupd : DeviceStore.update_status
          { st with hb := fun k => if k = i then true else st.hb k } i "available" now
          = some { st with
              hb := fun k => if k = i then true else st.hb k
              devices := fun k => if k = i then
                  some { h with status := "available", updated_at := toString now }
                else st.devices k
              statusIdx := fun s =>
                if s = h.status then (st.statusIdx s).erase i
                else if s = "available" then insert i (st.statusIdx s)
                else st.statusIdx s } := by
        unfold DeviceStore.update_status
        rw [hst1dev]
        dsimp only
        rw [if_pos (by rw [hoff]; exact ⟨by decide, by decide⟩)]
      rw [hupd]
      refine ⟨rfl, by simp, fun _ => ⟨by simp, ?_, ?_, ?_⟩, fun hne => absurd hoff hne⟩
      · show (if "offline" = h.status then (st.statusIdx "offline").erase i
          else if ("offline" : String) = "available" then insert i (st.statusIdx "offline")
          else st.statusIdx "offline") = (st.statusIdx "offline").erase i
        rw [hoff]
        simp
      · show (if "available" = h.status then (st.statusIdx "available").erase i
          else if ("available" : String) = "available" then insert i (st.statusIdx "available")
          else st.statusIdx "available") = insert i (st.statusIdx "available")
        rw [hoff]
        simp
      · intro s hs1 hs2
        show (if s = h.status then (st.statusIdx s).erase i
          else if s = "available" then insert i (st.statusIdx s)
          else st.statusIdx s) = st.statusIdx s
        rw [hoff, if_neg hs1, if_neg hs2]
    · rw [if_neg hoff]
      exact ⟨rfl, by simp, fun hc => absurd hc hoff,
        fun _ => ⟨by simp [hsome], fun s => rfl⟩⟩

theorem c8_witness :
    (Main.heartbeat stOff "o1" 9).1 = HttpResult.ok
    ∧ ((Main.heartbeat stOff "o1" 9).2.devices "o1").map DeviceHash.status = some "available"
    ∧ (Main.heartbeat stOff "o1" 9).2.statusIdx "offline"
        = (stOff.statusIdx "offline").erase "o1"
    ∧ (Main.heartbeat stOff "o1" 9).2.statusIdx "available"
        = insert "o1" (stOff.statusIdx "available") :=
  ⟨((c8_heartbeat stOff "o1" 9).2 hOff rfl).1,
   (((c8_heartbeat stOff "o1" 9).2 hOff rfl).2.2.1 rfl).1,
   (((c8_heartbeat stOff "o1" 9).2 hOff rfl).2.2.1 rfl).2.1,
   (((c8_heartbeat stOff "o1" 9).2 hOff rfl).2.2.1 rfl).2.2.1⟩

lemma register_devices_self (st : StoreState) (d : Device) (now : Nat) :
    (DeviceStore.register st d now).devices d.device_id = some (device_to_hash d now) := by
  unfold DeviceStore.register
  dsimp only
  split <;> split <;> simp

lemma register_statusIdx_of_some (st : StoreState) (d : Device) (now : Nat) (h : DeviceHash)
    (hs : st.devices d.device_id = some h) (s : String) :
    (DeviceStore.register st d now).statusIdx s =
      if s = d.status then
        insert d.device_id
          (if h.status ≠ "" ∧ h.status ≠ d.status ∧ s = h.status then
            (st.statusIdx s).erase d.device_id
          else st.statusIdx s)
      else
        (if h.status ≠ "" ∧ h.status ≠ d.status ∧ s = h.status then
          (st.statusIdx s).erase d.device_id
        else st.statusIdx s) := by
  unfold DeviceStore.register
  rw [hs]
  dsimp only
  by_cases hg : h.status ≠ "" ∧ h.status ≠ d.status
  · rw [if_pos hg]
    split <;> split <;> simp_all
  · rw [if_neg hg]
    have hng : ¬(h.status ≠ "" ∧ h.status ≠ d.status ∧ s = h.status) := by tauto
    rw [if_neg hng]
    split <;> split <;> simp_all

lemma register_statusIdx_of_none (st : StoreState) (d : Device) (now : Nat)
    (hs : st.devices d.device_id = none) (s : String) :
    (DeviceStore.register st d now).statusIdx s =
      if s = d.status then insert d.device_id (st.statusIdx s) else st.statusIdx s := by
  unfold DeviceStore.register
  rw [hs]
  dsimp only
  have hng : ¬(("" : String) ≠ "" ∧ ("" : String) ≠ d.status) := by simp
  rw [if_neg hng]
  split <;> split <;> simp_all

lemma register_self_mem (st : StoreState) (d : Device) (n1 : Nat) :
    d.device_id ∈ (DeviceStore.register st d n1).statusIdx d.status := by
  cases hdev : st.devices d.device_id with
  | none =>
    rw [register_statusIdx_of_none st d n1 hdev, if_pos rfl]
    exact Finset.mem_insert_self _ _
  | some h =>
    rw [register_statusIdx_of_some st d n1 h hdev, if_pos rfl]
    exact Finset.mem_insert_self _ _

/-- C9: register is idempotent on the status index: a second register of
the same device with identical fields leaves every status index set
exactly as after the first call, and after the first call the identifier
is a member of exactly the status set named by the device status.  The
well-formedness hypotheses say that any prior index membership of this
identifier agrees with its stored record and that a stored status is
never the empty string, which every state produced by register itself
satisfies. -/
theorem c9_register_idempotent (st : StoreState) (d : Device) (n1 n2 : Nat)
    (hwf : ∀ s, d.device_id ∈ st.statusIdx s →
        ∃ h, st.devices d.device_id = some h ∧ h.status = s)
    (hne : ∀ h, st.devices d.device_id = some h → h.status ≠ "") :
    (∀ s, (DeviceStore.register (DeviceStore.register st d n1) d n2).statusIdx s
        = (DeviceStore.register st d n1).statusIdx s)
    ∧ (∀ s, d.device_id ∈ (DeviceStore.register st d n1).statusIdx s ↔ s = d.status) := by
  have hdev1 := register_devices_self st d n1
  have hstat1 : (device_to_hash d n1).status = d.status := rfl
  have hmem := register_self_mem st d n1
  constructor
  · intro s
    rw [register_statusIdx_of_some (DeviceStore.register st d n1) d n2 _ hdev1 s]
    have hng : ¬((device_to_hash d n1).status ≠ "" ∧ (device_to_hash d n1).status ≠ d.status
        ∧ s = (device_to_hash d n1).status) := by
      rw [hstat1]; tauto
    rw [if_neg hng]
    by_cases hsd : s = d.status
    · rw [if_pos hsd, hsd]
      exact Finset.insert_eq_self.mpr hmem
    · rw [if_neg hsd]
  · intro s
    constructor
    · intro hin
      by_contra hsd
      cases hdev : st.devices d.device_id with
      | none =>
        rw [register_statusIdx_of_none st d n1 hdev, if_neg hsd] at hin
        obtain ⟨h, hsome, _⟩ := hwf s hin
        rw [hdev] at hsome
        cases hsome
      | some h =>
        rw [register_statusIdx_of_some st d n1 h hdev, if_neg hsd] at hin
        by_cases hcond : h.status ≠ "" ∧ h.status ≠ d.status ∧ s = h.status
        · rw [if_pos hcond] at hin
          exact Finset.not_mem_erase _ _ hin
        · rw [if_neg hcond] at hin
          obtain ⟨h2, hsome2, hst2⟩ := hwf s hin
          rw [hdev] at hsome2
          cases hsome2
          exact hcond ⟨hne h hdev, fun hc => hsd (hst2 ▸ hc ▸ rfl), hst2.symm⟩
    · intro hsd
      rw [hsd]
      exact hmem

theorem c9_witness :
    (∀ s, (DeviceStore.register (DeviceStore.register st0 d1 3) d1 4).statusIdx s
        = (DeviceStore.register st0 d1 3).statusIdx s)
    ∧ (∀ s, "d1" ∈ (DeviceStore.register st0 d1 3).statusIdx s ↔ s = "available") :=
  c9_register_idempotent st0 d1 3 4
    (fun s hs => absurd hs (by simp [st0]))
    (fun h hc => absurd hc (by simp [st0]))

/-- C4 counterexample: the acquire method of the pool issues the spop and
the sadd as two separate store commands, with no pipeline.  Starting from
the initialised pool over the single configured endpoint, the state after
the spop command alone — an externally observable state of the shared
store — has the endpoint in neither the available nor the in_use set,
contradicting the claim that every configured endpoint is in exactly one
of the two sets at every externally observable point. -/
theorem c4_counterexample :
    "http://a" ∈ (AppiumServerPool.ensure_servers_registered ["http://a"] ⟨∅, ∅⟩).available
    ∧ "http://a" ∉ (AppiumServerPool.acquireStep1
        (AppiumServerPool.ensure_servers_registered ["http://a"] ⟨∅, ∅⟩) "http://a").available
    ∧ "http://a" ∉ (AppiumServerPool.acquireStep1
        (AppiumServerPool.ensure_servers_registered ["http://a"] ⟨∅, ∅⟩) "http://a").in_use := by
  decide

/-- C4 amended: the exactly-one invariant holds at operation boundaries
rather than at every observable point.  Initialisation from disjoint
persisted sets yields a pool in which every configured endpoint is in
exactly one set and the available set holds only configured endpoints; a
completed acquire (both commands) preserves the exactly-one invariant
when the popped member is normalised; and acquire observes PoolExhausted
exactly when the available set is empty. -/
theorem c4_exactly_one_at_boundaries (cfg : List String) (p : PoolState) (x : String)
    (hdisj : Disjoint p.available p.in_use) :
    (exactlyOne cfg (AppiumServerPool.ensure_servers_registered cfg p)
      ∧ ∀ y ∈ (AppiumServerPool.ensure_servers_registered cfg p).available,
          y ∈ (AppiumServerPool.configuredServers cfg).toFinset)
    ∧ (exactlyOne cfg p → (∀ y ∈ p.available, normalise y = y) → x ∈ p.available →
        exactlyOne cfg (AppiumServerPool.acquire p x))
    ∧ (p.available = ∅ → spopChoice p.available = none) := by
  refine ⟨⟨?_, ?_⟩, ?_, ?_⟩
  · intro s hs
    unfold AppiumServerPool.ensure_servers_registered
    dsimp only
    by_cases hA : s ∈ p.available
    · refine Or.inl ⟨?_, Finset.disjoint_left.mp hdisj hA⟩
      simp only [Finset.mem_union, Finset.mem_sdiff]
      exact Or.inl ⟨hA, fun hc => hc.2 hs⟩
    · by_cases hU : s ∈ p.in_use
      · refine Or.inr ⟨?_, hU⟩
        intro hc
        simp only [Finset.mem_union, Finset.mem_sdiff] at hc
        rcases hc with ⟨hc1, _⟩ | ⟨_, hc2⟩
        · exact hA hc1
        · exact hc2 (Or.inr hU)
      · refine Or.inl ⟨?_, hU⟩
        simp only [Finset.mem_union, Finset.mem_sdiff]
        refine Or.inr ⟨hs, ?_⟩
        exact fun hc => hc.elim hA hU
  · intro y hy
    unfold AppiumServerPool.ensure_servers_registered at hy
    dsimp only at hy
    simp only [Finset.mem_union, Finset.mem_sdiff] at hy
    rcases hy with ⟨hy1, hy2⟩ | ⟨hy1, _⟩
    · by_contra hc
      exact hy2 ⟨hy1, hc⟩
    · exact hy1
  · intro hxo hnorm hx s hs
    unfold AppiumServerPool.acquire AppiumServerPool.acquireStep1 AppiumServerPool.acquireStep2
    dsimp only
    rw [hnorm x hx]
    rcases hxo s hs with ⟨hA, hU⟩ | ⟨hA, hU⟩
    · by_cases hsx : s = x
      · subst hsx
        exact Or.inr ⟨Finset.not_mem_erase _ _, Finset.mem_insert_self _ _⟩
      · refine Or.inl ⟨Finset.mem_erase.mpr ⟨hsx, hA⟩, ?_⟩
        simp only [Finset.mem_insert]
        tauto
    · have hsx : s ≠ x := fun hc => hA (hc ▸ hx)
      refine Or.inr ⟨fun hc => hA (Finset.mem_erase.mp hc).2, ?_⟩
      exact Finset.mem_insert_of_mem hU
  · intro hemp
    rw [hemp]
    simp [spopChoice, Finset.sort_empty]

theorem c4_witness :
    exactlyOne ["http://a"] (AppiumServerPool.ensure_servers_registered ["http://a"] ⟨∅, ∅⟩)
    ∧ ∀ y ∈ (AppiumServerPool.ensure_servers_registered ["http://a"] (⟨∅, ∅⟩ : PoolState)).available,
        y ∈ (AppiumServerPool.configuredServers ["http://a"]).toFinset :=
  (c4_exactly_one_at_boundaries ["http://a"] ⟨∅, ∅⟩ "http://a" (by simp)).1

lemma set_wda_lock (st : StoreState) (i : String) (p : Int) (now : Nat) :
    (DeviceStore.set_wda_port_on_device st i p now).lock = st.lock := by
  unfold DeviceStore.set_wda_port_on_device
  dsimp only
  cases st.devices i <;> rfl

lemma allocate_one_run (st : StoreState) (start stop : Int) (hl : st.wdaPoolLock = false) :
    DeviceStore.allocate_wda_port 1 st start stop =
      match DeviceStore.firstFree st.wdaUsed (DeviceStore.portRange start stop) with
      | some p =>
        (Except.ok p, { st with wdaUsed := insert p st.wdaUsed, wdaPoolLock := false })
      | none =>
        (Except.error "No free wdaLocalPort in configured range",
         { st with wdaPoolLock := false }) :=
  allocate_run st start stop 0 hl

lemma pstep_inv {did : String} {cfg : List String} {start stop : Int} {now : Nat}
    {pp : TwoReserve.ProcParams} {pc pc' : TwoReserve.PC} {st st' : StoreState}
    {pool pool' : PoolState} {oc : Bool}
    (h : TwoReserve.PStep did cfg start stop now pp (pc, st, pool) (pc', st', pool'))
    (hl : st.lock did = (TwoReserve.inCrit pc || oc))
    (hx : ¬(TwoReserve.inCrit pc = true ∧ oc = true))
    (hn : TwoReserve.noOk pc) :
    st'.lock did = (TwoReserve.inCrit pc' || oc)
    ∧ ¬(TwoReserve.inCrit pc' = true ∧ oc = true)
    ∧ TwoReserve.noOk pc' := by
  cases h with
  | check_ok _ _ _ _ _ => exact ⟨hl, hx, trivial⟩
  | check_notfound _ _ _ => exact ⟨hl, hx, by simp [TwoReserve.noOk]⟩
  | check_conflict _ _ _ _ _ => exact ⟨hl, hx, by simp [TwoReserve.noOk]⟩
  | lock_fail _ _ _ => exact ⟨hl, hx, by simp [TwoReserve.noOk]⟩
  | lock_ok _ _ hfree =>
    have hoc : oc = false := by
      rw [hfree] at hl
      simpa [TwoReserve.inCrit] using hl.symm
    refine ⟨?_, by simp [hoc], trivial⟩
    simp [DeviceStore.acquire_lock, hfree, hoc, TwoReserve.inCrit]
  | recheck_ok _ _ _ _ _ => exact ⟨hl, hx, trivial⟩
  | recheck_gone _ _ _ => exact ⟨hl, hx, by simp [TwoReserve.noOk]⟩
  | recheck_conflict _ _ _ _ _ => exact ⟨hl, hx, by simp [TwoReserve.noOk]⟩
  | port_skip _ _ _ _ => exact ⟨hl, hx, trivial⟩
  | port_req _ _ _ _ _ =>
    refine ⟨?_, hx, trivial⟩
    rw [set_wda_lock]
    exact hl
  | port_reuse _ _ _ _ _ _ => exact ⟨hl, hx, trivial⟩
  | port_alloc_ok _ _ _ p st2 _ _ _ hlck ha =>
    rw [allocate_one_run st start stop hlck] at ha
    cases hff : DeviceStore.firstFree st.wdaUsed (DeviceStore.portRange start stop) with
    | none => rw [hff] at ha; simp at ha
    | some q =>
      rw [hff] at ha
      dsimp only at ha
      have hok : (Except.ok q : Except String Int) = Except.ok p := congrArg Prod.fst ha
      cases hok
      have hst2 := congrArg Prod.snd ha
      dsimp only at hst2
      subst hst2
      refine ⟨?_, hx, trivial⟩
      rw [set_wda_lock]
      exact hl
  | port_alloc_fail _ _ _ e st2 _ _ _ hlck ha =>
    rw [allocate_one_run st start stop hlck] at ha
    cases hff : DeviceStore.firstFree st.wdaUsed (DeviceStore.portRange start stop) with
    | some q => rw [hff] at ha; simp at ha
    | none =>
      rw [hff] at ha
      dsimp only at ha
      have hst2 := congrArg Prod.snd ha
      dsimp only at hst2
      subst hst2
      exact ⟨hl, hx, by simp [TwoReserve.noOk]⟩
  | port_alloc_wait _ _ _ _ _ _ _ => exact ⟨hl, hx, trivial⟩
  | pool_ok _ _ _ _ => exact ⟨hl, hx, trivial⟩
  | pool_empty _ _ _ => exact ⟨hl, hx, by simp [TwoReserve.noOk]⟩
  | sess_ok _ _ _ _ => exact ⟨hl, hx, trivial⟩
  | sess_fail _ _ _ _ => exact ⟨hl, hx, by simp [TwoReserve.noOk]⟩
  | commit_arity _ _ _ => exact ⟨hl, hx, by simp [TwoReserve.noOk]⟩
  | unlock _ _ r =>
    have hoc : oc = false := by
      by_contra hc
      exact hx ⟨rfl, by revert hc; cases oc <;> simp⟩
    refine ⟨?_, by simp [hoc, TwoReserve.inCrit], hn⟩
    simp [DeviceStore.release_lock, hoc, TwoReserve.inCrit]

lemma sysstep_inv {did : String} {cfg : List String} {start stop : Int} {now : Nat}
    {pa pb : TwoReserve.ProcParams} {s s' : TwoReserve.Sys}
    (h : TwoReserve.SysStep did cfg start stop now pa pb s s')
    (hi : TwoReserve.Inv did s) : TwoReserve.Inv did s' := by
  obtain ⟨h1, h2, h3, h4⟩ := hi
  cases h with
  | stepA _ _ _ hstep =>
    obtain ⟨g1, g2, g3⟩ := pstep_inv hstep h1 h2 h3
    exact ⟨g1, g2, g3, h4⟩
  | stepB _ _ _ hstep =>
    rw [Bool.or_comm] at h1
    have hx2 : ¬(TwoReserve.inCrit s.b = true ∧ TwoReserve.inCrit s.a = true) :=
      fun hc => h2 ⟨hc.2, hc.1⟩
    obtain ⟨g1, g2, g3⟩ := pstep_inv hstep h1 hx2 h4
    refine ⟨?_, fun hc => g2 ⟨hc.2, hc.1⟩, h3, g3⟩
    rw [Bool.or_comm]
    exact g1

lemma inv_reachable {did : String} {cfg : List String} {start stop : Int} {now : Nat}
    {pa pb : TwoReserve.ProcParams} {s0 s : TwoReserve.Sys}
    (h0 : TwoReserve.Inv did s0)
    (hr : Relation.ReflTransGen (TwoReserve.SysStep did cfg start stop now pa pb) s0 s) :
    TwoReserve.Inv did s := by
  induction hr with
  | refl => exact h0
  | tail _ hstep ih => exact sysstep_inv hstep ih

/-- C3: two concurrent reserve requests against the same device never
both succeed, and the lock-guarded sections are mutually exclusive: in
every state reachable from both processes at their initial step with the
lock key free, at most one process is inside the guarded section, and it
is impossible for both processes to have terminated with a successful
outcome.  (In the current code no reserve terminates successfully at all,
because the final commit raises TypeError; the lock exclusivity holds
independently of that.) -/
theorem c3_mutual_exclusion (did : String) (cfg : List String) (start stop : Int)
    (now : Nat) (pa pb : TwoReserve.ProcParams) (s0 s : TwoReserve.Sys)
    (ha0 : s0.a = TwoReserve.PC.checkInit) (hb0 : s0.b = TwoReserve.PC.checkInit)
    (hl0 : s0.store.lock did = false)
    (hr : Relation.ReflTransGen (TwoReserve.SysStep did cfg start stop now pa pb) s0 s) :
    ¬(s.a = TwoReserve.PC.done HttpResult.ok ∧ s.b = TwoReserve.PC.done HttpResult.ok)
    ∧ ¬(TwoReserve.inCrit s.a = true ∧ TwoReserve.inCrit s.b = true) := by
  have h0 : TwoReserve.Inv did s0 := by
    refine ⟨?_, ?_, ?_, ?_⟩
    · rw [ha0, hb0, hl0]; rfl
    · rw [ha0, hb0]; simp [TwoReserve.inCrit]
    · rw [ha0]; trivial
    · rw [hb0]; trivial
  obtain ⟨h1, h2, h3, h4⟩ := inv_reachable h0 hr
  refine ⟨?_, h2⟩
  rintro ⟨hA, _⟩
  rw [hA] at h3
  exact h3 rfl

theorem c3_witness :
    ¬(sysW.a = TwoReserve.PC.done HttpResult.ok ∧ sysW.b = TwoReserve.PC.done HttpResult.ok)
    ∧ ¬(TwoReserve.inCrit sysW.a = true ∧ TwoReserve.inCrit sysW.b = true) :=
  c3_mutual_exclusion "d1" ["http://a"] 8100 8199 8 ⟨none, true⟩ ⟨none, true⟩ sysW sysW
    rfl rfl rfl Relation.ReflTransGen.refl
